import Mathlib

set_option maxRecDepth 100000

/-!
Verification development for the PROCHAP QR-code desktop utility
(single source file `app.py`).

Python strings are modelled as lists of natural numbers, each entry one
byte of the string's UTF-8 encoding (so every byte is below 256).
`urllib.parse.quote` / `urllib.parse.unquote` are modelled byte-wise
(`quote` / `unquote` below), the SQLite table as a list of records in
rowid order, and storage or rendering failures of the external libraries
as explicit boolean oracles.
-/

/-- Bytes of the UTF-8 encoding of one Unicode code point. -/
def utf8EncodeChar (c : Nat) : List Nat :=
  if c < 128 then [c]
  else if c < 2048 then [192 + c / 64, 128 + c % 64]
  else if c < 65536 then [224 + c / 4096, 128 + (c / 64) % 64, 128 + c % 64]
  else [240 + c / 262144, 128 + (c / 4096) % 64, 128 + (c / 64) % 64, 128 + c % 64]

/-- UTF-8 bytes of a Lean string literal; used to transcribe the Python
string literals of the source into the byte-list model. -/
def strBytes (s : String) : List Nat :=
  (s.data.map (fun c => utf8EncodeChar c.toNat)).flatten

/-- Characters `urllib.parse.quote` leaves unencoded with its default
`safe='/'`: ASCII letters, digits, `_`, `.`, `-`, `~` and `/`. -/
def isSafeByte (b : Nat) : Bool :=
  (65 ≤ b && b ≤ 90) || (97 ≤ b && b ≤ 122) || (48 ≤ b && b ≤ 57) ||
    b == 95 || b == 46 || b == 45 || b == 126 || b == 47

/-- Uppercase hexadecimal digit, as a byte (`%X` formatting of one nibble). -/
def hexDigit (n : Nat) : Nat :=
  if n < 10 then 48 + n else 55 + n

/-- Value of one hexadecimal digit byte, accepting both cases as
`urllib.parse.unquote` does. -/
def unhexDigit (b : Nat) : Option Nat :=
  if 48 ≤ b && b ≤ 57 then some (b - 48)
  else if 65 ≤ b && b ≤ 70 then some (b - 55)
  else if 97 ≤ b && b ≤ 102 then some (b - 87)
  else none

/-- Byte-level model of `urllib.parse.quote(s)` (default `safe='/'`):
safe bytes pass through, every other byte becomes `%XX` with uppercase
hexadecimal digits. -/
def quote : List Nat → List Nat
  | [] => []
  | b :: bs =>
    if isSafeByte b then b :: quote bs
    else 37 :: hexDigit (b / 16) :: hexDigit (b % 16) :: quote bs

/-- Byte-level model of `urllib.parse.unquote`: a `%` followed by two
hexadecimal digits decodes to the corresponding byte, an invalid `%`
sequence stays literal, every other byte passes through. -/
def unquote : List Nat → List Nat
  | [] => []
  | b :: bs =>
    if b = 37 then
      match _hm : bs with
      | h1 :: h2 :: rest =>
        match unhexDigit h1, unhexDigit h2 with
        | some a, some c => (16 * a + c) :: unquote rest
        | _, _ => b :: unquote (h1 :: h2 :: rest)
      | _ => b :: unquote bs
    else b :: unquote bs
termination_by l => l.length
decreasing_by all_goals (simp_all [List.length_cons]; try omega)

theorem unhexDigit_hexDigit (n : Nat) (h : n < 16) : unhexDigit (hexDigit n) = some n := by
  interval_cases n <;> decide

theorem quote_cons_safe (b : Nat) (bs : List Nat) (h : isSafeByte b = true) :
    quote (b :: bs) = b :: quote bs := by
  simp [quote, h]

theorem quote_cons_encoded (b : Nat) (bs : List Nat) (h : isSafeByte b = false) :
    quote (b :: bs) = 37 :: hexDigit (b / 16) :: hexDigit (b % 16) :: quote bs := by
  simp [quote, h]

theorem unquote_cons_of_ne (b : Nat) (bs : List Nat) (h : b ≠ 37) :
    unquote (b :: bs) = b :: unquote bs := by
  rw [unquote.eq_def]
  simp [h]

theorem unquote_percent (h1 h2 : Nat) (rest : List Nat) (a c : Nat)
    (e1 : unhexDigit h1 = some a) (e2 : unhexDigit h2 = some c) :
    unquote (37 :: h1 :: h2 :: rest) = (16 * a + c) :: unquote rest := by
  simp [unquote, e1, e2]

/-- Percent-decoding inverts percent-encoding on byte strings. -/
theorem unquote_quote (bs : List Nat) (h : ∀ b ∈ bs, b < 256) :
    unquote (quote bs) = bs := by
  induction bs with
  | nil => simp [quote, unquote]
  | cons b rest ih =>
    have hb : b < 256 := h b (by simp)
    have hrest : ∀ x ∈ rest, x < 256 := fun x hx => h x (by simp [hx])
    by_cases hs : isSafeByte b
    · have hb37 : b ≠ 37 := by
        intro e
        subst e
        exact absurd hs (by decide)
      rw [quote_cons_safe b rest hs, unquote_cons_of_ne b _ hb37, ih hrest]
    · rw [quote_cons_encoded b rest (by simpa using hs),
        unquote_percent _ _ _ _ _ (unhexDigit_hexDigit (b / 16) (by omega))
          (unhexDigit_hexDigit (b % 16) (by omega)),
        ih hrest]
      congr 1
      omega

theorem hexDigit_ge (n : Nat) : 48 ≤ hexDigit n := by
  unfold hexDigit
  split <;> omega

/-- Percent-encoded output never contains a newline byte. -/
theorem newline_not_mem_quote (bs : List Nat) : 10 ∉ quote bs := by
  induction bs with
  | nil => simp [quote]
  | cons b rest ih =>
    by_cases hs : isSafeByte b
    · have hb : b ≠ 10 := by
        intro e
        subst e
        exact absurd hs (by decide)
      rw [quote_cons_safe b rest hs]
      simp [Ne.symm hb, ih]
    · rw [quote_cons_encoded b rest (by simpa using hs)]
      have g1 := hexDigit_ge (b / 16)
      have g2 := hexDigit_ge (b % 16)
      simp only [List.mem_cons]
      push_neg
      refine ⟨by omega, by omega, by omega, ih⟩

/-- First four lines of the QR payload, exactly the f-string
`"PROCHAP\nCódigo: {code}\nDescripción: {description}\nPersonalización: {personalization}"`
of `QRGenerator.create_qr_content`. -/
def fourLineContent (code description personalization : List Nat) : List Nat :=
  strBytes "PROCHAP\nCódigo: " ++ code ++ strBytes "\nDescripción: " ++ description ++
    strBytes "\nPersonalización: " ++ personalization

/-- Model of `QRGenerator.create_qr_content`: the four-line template,
then a WhatsApp share line whose query value is the percent-encoded
template. -/
def create_qr_content (code description personalization : List Nat) : List Nat :=
  let qr_content := fourLineContent code description personalization
  let whatsapp_message := quote qr_content
  let whatsapp_url := strBytes "https://wa.me/?text=" ++ whatsapp_message
  qr_content ++ strBytes "\nCompartir por WhatsApp: " ++ whatsapp_url

/-- Sanity check of the UTF-8 transcription on a non-ASCII character. -/
theorem strBytes_utf8_example : strBytes "Có" = [67, 195, 179] := by decide

/-- Sanity check of the formatter model against the output of the real
`urllib.parse.quote` on the spec example. -/
theorem create_qr_content_example :
    create_qr_content (strBytes "A1") (strBytes "Box") [] =
      strBytes "PROCHAP\nCódigo: A1\nDescripción: Box\nPersonalización: " ++
        strBytes "\nCompartir por WhatsApp: https://wa.me/?text=" ++
        strBytes "PROCHAP%0AC%C3%B3digo%3A%20A1%0ADescripci%C3%B3n%3A%20Box%0APersonalizaci%C3%B3n%3A%20" := by
  decide

theorem fourLineContent_bytes_lt (code description personalization : List Nat)
    (hc : ∀ b ∈ code, b < 256) (hd : ∀ b ∈ description, b < 256)
    (hp : ∀ b ∈ personalization, b < 256) :
    ∀ b ∈ fourLineContent code description personalization, b < 256 := by
  intro b hb
  simp only [fourLineContent, List.append_assoc, List.mem_append] at hb
  rcases hb with h | h | h | h | h | h
  · exact (by decide : ∀ b ∈ strBytes "PROCHAP\nCódigo: ", b < 256) b h
  · exact hc b h
  · exact (by decide : ∀ b ∈ strBytes "\nDescripción: ", b < 256) b h
  · exact hd b h
  · exact (by decide : ∀ b ∈ strBytes "\nPersonalización: ", b < 256) b h
  · exact hp b h

/-- C1: for every (code, description, personalization) triple,
`create_qr_content` (a pure function, hence deterministic) returns the
four-line template `PROCHAP / Código: .. / Descripción: .. /
Personalización: ..` followed by the single line
`Compartir por WhatsApp: https://wa.me/?text=<payload>`, where
percent-decoding `<payload>` yields exactly the four-line text; when the
three fields contain no newline the text before the share line has
exactly four lines (three newline bytes) and the whole content exactly
five (four newline bytes). -/
theorem create_qr_content_spec (code description personalization : List Nat)
    (hc : ∀ b ∈ code, b < 256) (hd : ∀ b ∈ description, b < 256)
    (hp : ∀ b ∈ personalization, b < 256)
    (hcn : 10 ∉ code) (hdn : 10 ∉ description) (hpn : 10 ∉ personalization) :
    create_qr_content code description personalization =
      fourLineContent code description personalization ++
        strBytes "\nCompartir por WhatsApp: https://wa.me/?text=" ++
        quote (fourLineContent code description personalization) ∧
    unquote (quote (fourLineContent code description personalization)) =
      fourLineContent code description personalization ∧
    (fourLineContent code description personalization).count 10 = 3 ∧
    (create_qr_content code description personalization).count 10 = 4 := by
  have hAB : strBytes "\nCompartir por WhatsApp: " ++ strBytes "https://wa.me/?text=" =
      strBytes "\nCompartir por WhatsApp: https://wa.me/?text=" := by decide
  have hstruct : create_qr_content code description personalization =
      fourLineContent code description personalization ++
        strBytes "\nCompartir por WhatsApp: https://wa.me/?text=" ++
        quote (fourLineContent code description personalization) := by
    simp only [create_qr_content, ← hAB, List.append_assoc]
  have hround : unquote (quote (fourLineContent code description personalization)) =
      fourLineContent code description personalization :=
    unquote_quote _ (fourLineContent_bytes_lt code description personalization hc hd hp)
  have hfour : (fourLineContent code description personalization).count 10 = 3 := by
    simp only [fourLineContent, List.count_append]
    rw [List.count_eq_zero.mpr hcn, List.count_eq_zero.mpr hdn, List.count_eq_zero.mpr hpn]
    decide
  refine ⟨hstruct, hround, hfour, ?_⟩
  rw [hstruct]
  simp only [List.count_append, hfour,
    List.count_eq_zero.mpr (newline_not_mem_quote (fourLineContent code description personalization))]
  decide

/-- Witness for C1 at code `A1`, description `Box`, empty personalization. -/
theorem create_qr_content_spec_witness :
    create_qr_content (strBytes "A1") (strBytes "Box") [] =
      fourLineContent (strBytes "A1") (strBytes "Box") [] ++
        strBytes "\nCompartir por WhatsApp: https://wa.me/?text=" ++
        quote (fourLineContent (strBytes "A1") (strBytes "Box") []) ∧
    unquote (quote (fourLineContent (strBytes "A1") (strBytes "Box") [])) =
      fourLineContent (strBytes "A1") (strBytes "Box") [] ∧
    (fourLineContent (strBytes "A1") (strBytes "Box") []).count 10 = 3 ∧
    (create_qr_content (strBytes "A1") (strBytes "Box") []).count 10 = 4 :=
  create_qr_content_spec (strBytes "A1") (strBytes "Box") []
    (by decide) (by decide) (by decide) (by decide) (by decide) (by decide)

/-- One row of the `qr_codes` table: surrogate id plus the four text
columns, in column order. -/
structure StoreRec where
  id : Nat
  contenido : List Nat
  fecha_creacion : List Nat
  descripcion : List Nat
  personalizacion : List Nat
deriving DecidableEq, Repr

/-- The SQLite database: the `qr_codes` table in rowid order plus the
next `AUTOINCREMENT` value (SQLite never reuses it, even after a
`DELETE FROM`). -/
structure DB where
  nextId : Nat
  rows : List StoreRec
deriving DecidableEq, Repr

/-- Database state right after `initialize_database` on a fresh file. -/
def initialDB : DB := { nextId := 1, rows := [] }

/-- Effect of a successful `INSERT INTO qr_codes ... VALUES (?, ?, ?, ?)`:
the new row is appended with the next id. -/
def dbInsert (db : DB) (contenido fecha descripcion personalizacion : List Nat) : DB :=
  { nextId := db.nextId + 1,
    rows := db.rows ++
      [{ id := db.nextId, contenido := contenido, fecha_creacion := fecha,
         descripcion := descripcion, personalizacion := personalizacion }] }

/-- The raw SQLite insert: raises (`Except.error`) exactly when the
storage layer fails, which the boolean oracle `fail` decides. -/
def sqliteInsert (fail : Bool) (db : DB) (contenido fecha descripcion personalizacion : List Nat) :
    Except Unit DB :=
  if fail then Except.error () else Except.ok (dbInsert db contenido fecha descripcion personalizacion)

/-- Model of `DatabaseManager.initialize_database`: on `sqlite3.Error` it
logs and then re-raises (`raise` in the `except` block). -/
def initialize_database (fail : Bool) : Except Unit Unit :=
  match (if fail then Except.error () else Except.ok () : Except Unit Unit) with
  | Except.ok _ => Except.ok ()
  | Except.error e => Except.error e

/-- Model of `DatabaseManager.create_qr_code`: the timestamp
`datetime.now().strftime(..)` is the extra `now` input; on
`sqlite3.Error` it logs and returns `False`, otherwise `True`. -/
def create_qr_code (fail : Bool) (now : List Nat) (db : DB)
    (contenido descripcion personalizacion : List Nat) : Except Unit (Bool × DB) :=
  match sqliteInsert fail db contenido now descripcion personalizacion with
  | Except.ok db2 => Except.ok (true, db2)
  | Except.error _ => Except.ok (false, db)

/-- Model of `DatabaseManager.get_all_qr_codes`: `SELECT * FROM qr_codes`
returns the rows in rowid order; on `sqlite3.Error` it logs and returns
the empty list. -/
def get_all_qr_codes (fail : Bool) (db : DB) : Except Unit (List StoreRec) :=
  match (if fail then Except.error () else Except.ok db.rows : Except Unit (List StoreRec)) with
  | Except.ok rows => Except.ok rows
  | Except.error _ => Except.ok []

/-- Model of `DatabaseManager.delete_all_qr_codes`: `DELETE FROM qr_codes`
empties the table; on `sqlite3.Error` it logs and returns `False`. -/
def delete_all_qr_codes (fail : Bool) (db : DB) : Except Unit (Bool × DB) :=
  match (if fail then Except.error () else Except.ok { db with rows := [] } : Except Unit DB) with
  | Except.ok db2 => Except.ok (true, db2)
  | Except.error _ => Except.ok (false, db)

/-- C5: a successful create appends a record whose identifier is strictly
greater than every previously stored identifier, `get_all_qr_codes`
returns old rows followed by the new one, the id bound is preserved, and
strictly-ascending id order is preserved. -/
theorem create_then_list_spec (db : DB) (now contenido descripcion personalizacion : List Nat)
    (hwf : ∀ r ∈ db.rows, r.id < db.nextId) :
    ∃ db2 newRec,
      create_qr_code false now db contenido descripcion personalizacion =
        Except.ok (true, db2) ∧
      get_all_qr_codes false db2 = Except.ok (db.rows ++ [newRec]) ∧
      (∀ r ∈ db.rows, r.id < newRec.id) ∧
      (∀ r ∈ db2.rows, r.id < db2.nextId) ∧
      ((db.rows.map StoreRec.id).Pairwise (· < ·) →
        (db2.rows.map StoreRec.id).Pairwise (· < ·)) := by
  refine ⟨dbInsert db contenido now descripcion personalizacion,
    { id := db.nextId, contenido := contenido, fecha_creacion := now,
      descripcion := descripcion, personalizacion := personalizacion }, ?_, ?_, ?_, ?_, ?_⟩
  · rfl
  · rfl
  · exact hwf
  · intro r hr
    simp only [dbInsert, List.mem_append, List.mem_singleton] at hr
    rcases hr with h | h
    · have := hwf r h
      simp only [dbInsert]
      omega
    · subst h
      simp [dbInsert]
  · intro hsorted
    simp only [dbInsert, List.map_append, List.map_cons, List.map_nil]
    rw [List.pairwise_append]
    refine ⟨hsorted, List.pairwise_singleton _ _, ?_⟩
    intro a ha b hb
    simp only [List.mem_singleton] at hb
    subst hb
    simp only [List.mem_map] at ha
    obtain ⟨r, hr, rfl⟩ := ha
    exact hwf r hr

/-- Example record with identifier 1, used by concrete witnesses. -/
def sampleRec : StoreRec :=
  { id := 1, contenido := [65], fecha_creacion := [], descripcion := [66], personalizacion := [] }

/-- Example database holding `sampleRec`, used by concrete witnesses. -/
def sampleDB : DB := { nextId := 2, rows := [sampleRec] }

/-- Witness for C5 on a database already holding one record. -/
theorem create_then_list_spec_witness :
    ∃ db2 newRec,
      create_qr_code false (strBytes "2024-01-01 00:00:00") sampleDB [67] [68] [] =
        Except.ok (true, db2) ∧
      get_all_qr_codes false db2 = Except.ok (sampleDB.rows ++ [newRec]) ∧
      (∀ r ∈ sampleDB.rows, r.id < newRec.id) ∧
      (∀ r ∈ db2.rows, r.id < db2.nextId) ∧
      ((sampleDB.rows.map StoreRec.id).Pairwise (· < ·) →
        ((db2.rows.map StoreRec.id).Pairwise (· < ·))) :=
  create_then_list_spec sampleDB (strBytes "2024-01-01 00:00:00") [67] [68] []
    (by decide)

/-- C7: a successful `delete_all_qr_codes` followed by
`get_all_qr_codes` yields the empty sequence, whatever the prior
contents were. -/
theorem delete_then_list_spec (db : DB) :
    ∃ db2, delete_all_qr_codes false db = Except.ok (true, db2) ∧
      get_all_qr_codes false db2 = Except.ok [] := by
  exact ⟨{ db with rows := [] }, rfl, rfl⟩

/-- Counterexample to C6 as stated: on a storage failure
`initialize_database` does not report a boolean result; it re-raises the
`sqlite3.Error` to its caller. -/
theorem initialize_database_raises : initialize_database true = Except.error () := rfl

/-- C6 amended: `create_qr_code`, `get_all_qr_codes` and
`delete_all_qr_codes` never propagate the exception and report a
storage failure as a result value: under a failure create returns
`False` with the database unchanged, listAll returns the empty list,
and deleteAll returns `False` with the database unchanged; without a
failure they return `True` with the insert applied, the stored rows,
and `True` with the table emptied. `initialize_database`, by contrast,
returns normally only without a failure and re-raises the storage
exception when one occurs. -/
theorem store_ops_error_reporting (fail : Bool) (db : DB)
    (now contenido descripcion personalizacion : List Nat) :
    create_qr_code fail now db contenido descripcion personalizacion =
      Except.ok (if fail then (false, db)
                 else (true, dbInsert db contenido now descripcion personalizacion)) ∧
    get_all_qr_codes fail db = Except.ok (if fail then [] else db.rows) ∧
    delete_all_qr_codes fail db =
      Except.ok (if fail then (false, db) else (true, { db with rows := [] })) ∧
    initialize_database fail = (if fail then Except.error () else Except.ok ()) := by
  cases fail <;>
    exact ⟨rfl, rfl, rfl, rfl⟩

/-- Bytes Python's `str.strip()` removes at either end (ASCII whitespace). -/
def isSpaceByte (b : Nat) : Bool :=
  b == 32 || b == 9 || b == 10 || b == 11 || b == 12 || b == 13

/-- Model of Python's `str.strip()`: drop whitespace bytes from both ends. -/
def strip (s : List Nat) : List Nat :=
  ((s.dropWhile isSpaceByte).reverse.dropWhile isSpaceByte).reverse

/-- One spreadsheet row as the import loop sees it after the column
mapping: the three cell texts, the `datetime.now()` timestamp of its
insert attempt, and oracles telling whether the store insert
(`create_qr_code`) and the raster rendering (`generate_qr_image`)
succeed for this row. -/
structure ImportRow where
  code : List Nat
  descr : List Nat
  pers : List Nat
  fecha : List Nat
  insertOk : Bool
  renderOk : Bool
deriving DecidableEq, Repr

/-- A row is attempted (not skipped) when code and description are both
non-empty after trimming. -/
def attempted (r : ImportRow) : Bool :=
  !((strip r.code).isEmpty || (strip r.descr).isEmpty)

/-- An attempted row counts as a success exactly when its insert and its
render both succeed. -/
def rowSuccess (r : ImportRow) : Bool :=
  attempted r && r.insertOk && r.renderOk

/-- An attempted row counts as an error when its insert or render fails. -/
def rowError (r : ImportRow) : Bool :=
  attempted r && !(r.insertOk && r.renderOk)

/-- QR content built for a row, as the import loop does after trimming. -/
def rowContent (r : ImportRow) : List Nat :=
  create_qr_content (strip r.code) (strip r.descr) (strip r.pers)

/-- Observable state threaded through `importar_datos`: the three
counters, the database, the contents for which a store insert
respectively a raster render was attempted, and the emitted progress
updates. -/
structure ImportState where
  success : Nat
  error : Nat
  skipped : Nat
  db : DB
  inserts : List (List Nat)
  renders : List (List Nat)
  progress : List (Nat × Nat)
deriving DecidableEq, Repr

/-- One iteration of the row loop of `QRApp.importar_datos`: trim, skip
on an empty required field (the `continue` bypasses the progress
update), otherwise insert and on success render; the progress update
`update_progress(index + 1, total_rows)` runs at the end of every
non-skipped iteration. -/
def importRow (total : Nat) (st : ImportState) (ir : Nat × ImportRow) : ImportState :=
  let index := ir.1
  let r := ir.2
  let code := strip r.code
  let description := strip r.descr
  let personalization := strip r.pers
  if code.isEmpty || description.isEmpty then
    { st with skipped := st.skipped + 1 }
  else
    let qr_content := create_qr_content code description personalization
    let st1 :=
      match create_qr_code (!r.insertOk) r.fecha st.db qr_content description personalization with
      | Except.ok (true, db2) =>
        if r.renderOk then
          { st with db := db2, inserts := st.inserts ++ [qr_content],
                    renders := st.renders ++ [qr_content], success := st.success + 1 }
        else
          { st with db := db2, inserts := st.inserts ++ [qr_content],
                    renders := st.renders ++ [qr_content], error := st.error + 1 }
      | Except.ok (false, db2) =>
        { st with db := db2, inserts := st.inserts ++ [qr_content], error := st.error + 1 }
      | Except.error _ => { st with error := st.error + 1 }
    { st1 with progress := st1.progress ++ [(index + 1, total)] }

/-- The `for index, row in df.iterrows()` loop of `importar_datos`. -/
def importLoop (total : Nat) : Nat → ImportState → List ImportRow → ImportState
  | _, st, [] => st
  | index, st, row :: rest => importLoop total (index + 1) (importRow total st (index, row)) rest

/-- Model of `QRApp.importar_datos` on an already-parsed sheet of rows,
starting from database `db` with all counters at zero. -/
def importar_datos (db : DB) (rows : List ImportRow) : ImportState :=
  importLoop rows.length 0
    { success := 0, error := 0, skipped := 0, db := db, inserts := [], renders := [], progress := [] }
    rows

/-- Record inserted for an attempted row whose store insert succeeds,
given the AUTOINCREMENT id it receives. -/
def insertedRec (nid : Nat) (r : ImportRow) : StoreRec :=
  { id := nid, contenido := rowContent r, fecha_creacion := r.fecha,
    descripcion := strip r.descr, personalizacion := strip r.pers }

theorem importRow_fields (total : Nat) (st : ImportState) (index : Nat) (r : ImportRow) :
    (importRow total st (index, r)).skipped = st.skipped + (if attempted r then 0 else 1) ∧
    (importRow total st (index, r)).success = st.success + (if rowSuccess r then 1 else 0) ∧
    (importRow total st (index, r)).error = st.error + (if rowError r then 1 else 0) ∧
    (importRow total st (index, r)).inserts =
      st.inserts ++ (if attempted r then [rowContent r] else []) ∧
    (importRow total st (index, r)).renders =
      st.renders ++ (if attempted r && r.insertOk then [rowContent r] else []) ∧
    (importRow total st (index, r)).progress =
      st.progress ++ (if attempted r then [(index + 1, total)] else []) ∧
    (importRow total st (index, r)).db.rows =
      st.db.rows ++ (if attempted r && r.insertOk then [insertedRec st.db.nextId r] else []) ∧
    (importRow total st (index, r)).db.nextId =
      st.db.nextId + (if attempted r && r.insertOk then 1 else 0) := by
  cases hc : ((strip r.code).isEmpty || (strip r.descr).isEmpty) <;>
    cases hio : r.insertOk <;>
      cases hre : r.renderOk <;>
        simp [importRow, create_qr_code, sqliteInsert, dbInsert, attempted, rowSuccess,
          rowError, rowContent, insertedRec, hc, hio, hre]

theorem importLoop_cons (total index : Nat) (st : ImportState) (r : ImportRow)
    (rs : List ImportRow) :
    importLoop total index st (r :: rs) =
      importLoop total (index + 1) (importRow total st (index, r)) rs := rfl

theorem importLoop_skipped (rows : List ImportRow) :
    ∀ (total index : Nat) (st : ImportState),
      (importLoop total index st rows).skipped =
        st.skipped + rows.countP (fun r => !(attempted r)) := by
  induction rows with
  | nil => intro total index st; simp [importLoop]
  | cons r rs ih =>
    intro total index st
    rw [importLoop_cons, ih, (importRow_fields total st index r).1, List.countP_cons]
    cases hA : attempted r <;> simp [hA] <;> omega

theorem importLoop_success (rows : List ImportRow) :
    ∀ (total index : Nat) (st : ImportState),
      (importLoop total index st rows).success = st.success + rows.countP rowSuccess := by
  induction rows with
  | nil => intro total index st; simp [importLoop]
  | cons r rs ih =>
    intro total index st
    rw [importLoop_cons, ih, (importRow_fields total st index r).2.1, List.countP_cons]
    cases hS : rowSuccess r <;> simp [hS] <;> omega

theorem importLoop_error (rows : List ImportRow) :
    ∀ (total index : Nat) (st : ImportState),
      (importLoop total index st rows).error = st.error + rows.countP rowError := by
  induction rows with
  | nil => intro total index st; simp [importLoop]
  | cons r rs ih =>
    intro total index st
    rw [importLoop_cons, ih, (importRow_fields total st index r).2.2.1, List.countP_cons]
    cases hE : rowError r <;> simp [hE] <;> omega

theorem importLoop_inserts (rows : List ImportRow) :
    ∀ (total index : Nat) (st : ImportState),
      (importLoop total index st rows).inserts =
        st.inserts ++ (rows.filter attempted).map rowContent := by
  induction rows with
  | nil => intro total index st; simp [importLoop]
  | cons r rs ih =>
    intro total index st
    rw [importLoop_cons, ih, (importRow_fields total st index r).2.2.2.1, List.filter_cons]
    cases hA : attempted r <;> simp [hA]

theorem importLoop_renders (rows : List ImportRow) :
    ∀ (total index : Nat) (st : ImportState),
      (importLoop total index st rows).renders =
        st.renders ++ (rows.filter (fun r => attempted r && r.insertOk)).map rowContent := by
  induction rows with
  | nil => intro total index st; simp [importLoop]
  | cons r rs ih =>
    intro total index st
    rw [importLoop_cons, ih, (importRow_fields total st index r).2.2.2.2.1, List.filter_cons]
    cases hA : (attempted r && r.insertOk) <;> simp [hA]

/-- Progress updates the import loop emits starting at a given row
index: one `(index + 1, total)` pair per non-skipped row. -/
def progressList (total : Nat) : Nat → List ImportRow → List (Nat × Nat)
  | _, [] => []
  | index, r :: rs =>
    (if attempted r then [(index + 1, total)] else []) ++ progressList total (index + 1) rs

theorem importLoop_progress (rows : List ImportRow) :
    ∀ (total index : Nat) (st : ImportState),
      (importLoop total index st rows).progress =
        st.progress ++ progressList total index rows := by
  induction rows with
  | nil => intro total index st; simp [importLoop, progressList]
  | cons r rs ih =>
    intro total index st
    rw [importLoop_cons, ih, (importRow_fields total st index r).2.2.2.2.2.1, progressList]
    cases hA : attempted r <;> simp [hA]

/-- Records the import loop inserts into the table, with the
AUTOINCREMENT ids they receive starting from `nid`. -/
def importInserts (nid : Nat) : List ImportRow → List StoreRec
  | [] => []
  | r :: rs =>
    if attempted r && r.insertOk then insertedRec nid r :: importInserts (nid + 1) rs
    else importInserts nid rs

theorem importLoop_db (rows : List ImportRow) :
    ∀ (total index : Nat) (st : ImportState),
      (importLoop total index st rows).db.rows =
        st.db.rows ++ importInserts st.db.nextId rows ∧
      (importLoop total index st rows).db.nextId =
        st.db.nextId + rows.countP (fun r => attempted r && r.insertOk) := by
  induction rows with
  | nil => intro total index st; simp [importLoop, importInserts]
  | cons r rs ih =>
    intro total index st
    rw [importLoop_cons]
    obtain ⟨ihrows, ihnext⟩ := ih total (index + 1) (importRow total st (index, r))
    rw [ihrows, ihnext, (importRow_fields total st index r).2.2.2.2.2.2.1,
      (importRow_fields total st index r).2.2.2.2.2.2.2, importInserts, List.countP_cons]
    cases hA : (attempted r && r.insertOk) <;> simp [hA] <;> try omega

theorem countP_attempted_add_not (l : List ImportRow) :
    l.countP attempted + l.countP (fun r => !(attempted r)) = l.length := by
  induction l with
  | nil => simp
  | cons r rs ih =>
    simp only [List.countP_cons, List.length_cons]
    cases hA : attempted r <;> simp [hA] <;> omega

theorem countP_rowSuccess_add_rowError (l : List ImportRow) :
    l.countP rowSuccess + l.countP rowError = l.countP attempted := by
  induction l with
  | nil => simp
  | cons r rs ih =>
    simp only [List.countP_cons]
    cases hA : attempted r <;> cases hio : r.insertOk <;> cases hre : r.renderOk <;>
      simp [rowSuccess, rowError, hA, hio, hre] <;> omega

/-- C3: over any parsed sheet, with K the number of rows whose code and
description are both non-empty after trimming: skipped = N - K,
success + error = K, success counts exactly the attempted rows whose
insert and render both succeed, error the remaining attempted rows,
store inserts are attempted exactly for the K attempted rows (none for a
skipped row), and renders exactly for the attempted rows whose insert
succeeded. -/
theorem importar_datos_counts (db : DB) (rows : List ImportRow) :
    (importar_datos db rows).skipped = rows.length - rows.countP attempted ∧
    (importar_datos db rows).success + (importar_datos db rows).error =
      rows.countP attempted ∧
    (importar_datos db rows).success = rows.countP rowSuccess ∧
    (importar_datos db rows).error = rows.countP rowError ∧
    (importar_datos db rows).inserts = (rows.filter attempted).map rowContent ∧
    (importar_datos db rows).renders =
      (rows.filter (fun r => attempted r && r.insertOk)).map rowContent := by
  unfold importar_datos
  refine ⟨?_, ?_, ?_, ?_, ?_, ?_⟩
  · rw [importLoop_skipped]
    have h := countP_attempted_add_not rows
    show 0 + rows.countP (fun r => !(attempted r)) = rows.length - rows.countP attempted
    omega
  · rw [importLoop_success, importLoop_error]
    have h := countP_rowSuccess_add_rowError rows
    show 0 + rows.countP rowSuccess + (0 + rows.countP rowError) = rows.countP attempted
    omega
  · rw [importLoop_success]
    show 0 + rows.countP rowSuccess = rows.countP rowSuccess
    omega
  · rw [importLoop_error]
    show 0 + rows.countP rowError = rows.countP rowError
    omega
  · rw [importLoop_inserts]
    rfl
  · rw [importLoop_renders]
    rfl

/-- Import row whose code cell is empty: the loop skips it via
`continue`, which also bypasses the `update_progress` call. -/
def skipRow : ImportRow :=
  { code := [], descr := [66], pers := [], fecha := [], insertOk := true, renderOk := true }

/-- Counterexample to C4 as stated: importing the single row `skipRow`
processes one row but emits zero progress updates, because the
`continue` taken for a skipped row jumps past
`update_progress(index + 1, total_rows)`. -/
theorem importar_datos_progress_counterexample :
    (importar_datos initialDB [skipRow]).skipped = 1 ∧
    (importar_datos initialDB [skipRow]).progress = [] ∧
    (importar_datos initialDB [skipRow]).progress.length ≠ [skipRow].length := by
  decide

/-- C4 amended: a progress update `(index + 1, total_rows)` is issued
after every row whose outcome is success or error, but a skipped row
issues no progress update (its `continue` bypasses the update call). -/
theorem importar_datos_progress (db : DB) (rows : List ImportRow) :
    (importar_datos db rows).progress = progressList rows.length 0 rows := by
  unfold importar_datos
  rw [importLoop_progress]
  rfl

theorem rowContent_mem_importInserts (rows : List ImportRow) (r : ImportRow)
    (hr : r ∈ rows) (hA : attempted r = true) (hio : r.insertOk = true) :
    ∀ nid : Nat, rowContent r ∈ (importInserts nid rows).map StoreRec.contenido := by
  induction rows with
  | nil => cases hr
  | cons a rs ih =>
    intro nid
    rcases List.mem_cons.mp hr with rfl | hmem
    · rw [importInserts]
      simp [hA, hio, insertedRec]
    · rw [importInserts]
      cases hAa : (attempted a && a.insertOk)
      · simpa using ih hmem nid
      · simp only [if_pos trivial, List.map_cons, List.mem_cons]
        exact Or.inr (ih hmem (nid + 1))

/-- C9: an import row whose store insert succeeds but whose raster
rendering fails is counted as an error in the reported totals, yet its
record stays in the store: `get_all_qr_codes` after the import returns a
list containing the content inserted for that row. -/
theorem importar_datos_not_atomic (db : DB) (rows : List ImportRow) (r : ImportRow)
    (hr : r ∈ rows) (hA : attempted r = true) (hio : r.insertOk = true)
    (hre : r.renderOk = false) :
    rowError r = true ∧
    (importar_datos db rows).error = rows.countP rowError ∧
    ∃ l, get_all_qr_codes false (importar_datos db rows).db = Except.ok l ∧
      rowContent r ∈ l.map StoreRec.contenido := by
  refine ⟨by simp [rowError, hA, hio, hre], (importar_datos_counts db rows).2.2.2.1, ?_⟩
  refine ⟨(importar_datos db rows).db.rows, rfl, ?_⟩
  unfold importar_datos
  rw [(importLoop_db rows rows.length 0 _).1]
  show rowContent r ∈ (db.rows ++ importInserts db.nextId rows).map StoreRec.contenido
  rw [List.map_append, List.mem_append]
  exact Or.inr (rowContent_mem_importInserts rows r hr hA hio db.nextId)

/-- Import row that inserts fine but whose raster rendering fails. -/
def renderFailRow : ImportRow :=
  { code := [65], descr := [66], pers := [], fecha := [], insertOk := true, renderOk := false }

/-- Witness for C9 on a one-row import against the fresh database. -/
theorem importar_datos_not_atomic_witness :
    rowError renderFailRow = true ∧
    (importar_datos initialDB [renderFailRow]).error = [renderFailRow].countP rowError ∧
    ∃ l, get_all_qr_codes false (importar_datos initialDB [renderFailRow]).db = Except.ok l ∧
      rowContent renderFailRow ∈ l.map StoreRec.contenido :=
  importar_datos_not_atomic initialDB [renderFailRow] renderFailRow
    (by decide) (by decide) (by decide) (by decide)

/-- Outcome of the manual single-record entry handler: which dialog it
ends in. -/
inductive ManualOutcome where
  | validationError
  | dbError
  | renderError
  | success
  | unexpectedError
deriving DecidableEq, Repr

/-- Model of `QRApp.generate_and_save_qr`: read and trim the three entry
fields, validate that code and description are non-empty, then insert
and render. Besides the outcome it returns the resulting database and
the contents for which an insert respectively a render was attempted. -/
def generate_and_save_qr (db : DB) (codeRaw descrRaw persRaw now : List Nat)
    (insertOk renderOk : Bool) : ManualOutcome × DB × List (List Nat) × List (List Nat) :=
  let code := strip codeRaw
  let description := strip descrRaw
  let personalization := strip persRaw
  if code.isEmpty || description.isEmpty then
    (ManualOutcome.validationError, db, [], [])
  else
    let qr_content := create_qr_content code description personalization
    match create_qr_code (!insertOk) now db qr_content description personalization with
    | Except.ok (true, db2) =>
      if renderOk then (ManualOutcome.success, db2, [qr_content], [qr_content])
      else (ManualOutcome.renderError, db2, [qr_content], [qr_content])
    | Except.ok (false, db2) => (ManualOutcome.dbError, db2, [qr_content], [])
    | Except.error _ => (ManualOutcome.unexpectedError, db, [qr_content], [])

/-- C8: in manual entry, when code or description is empty after
trimming, validation fails first: the outcome is the validation error
dialog, the database is unchanged, and no store insert and no render is
attempted. -/
theorem generate_and_save_qr_validation (db : DB) (codeRaw descrRaw persRaw now : List Nat)
    (insertOk renderOk : Bool)
    (h : ((strip codeRaw).isEmpty || (strip descrRaw).isEmpty) = true) :
    generate_and_save_qr db codeRaw descrRaw persRaw now insertOk renderOk =
      (ManualOutcome.validationError, db, [], []) := by
  simp [generate_and_save_qr, h]

/-- Witness for C8: a code consisting of one space trims to empty. -/
theorem generate_and_save_qr_validation_witness :
    generate_and_save_qr sampleDB [32] (strBytes "desc") [] [] true true =
      (ManualOutcome.validationError, sampleDB, [], []) :=
  generate_and_save_qr_validation sampleDB [32] (strBytes "desc") [] [] true true (by decide)

/-- Caption text placed beside each raster in the PDF export, exactly
the `multi_cell` f-string of `QRApp.export_pdf`. -/
def caption (r : StoreRec) : List Nat :=
  strBytes "Descripción: " ++ r.descripcion ++ strBytes "\nFecha: " ++ r.fecha_creacion ++
    strBytes "\nPersonalización: " ++ r.personalizacion

/-- Placement of one record in the exported PDF: the 0-indexed page it
lands on, the image geometry `x=10, y, w=40, h=40`, the caption position
`set_xy(60, y)` and the caption text. -/
structure Placement where
  page : Nat
  y : Nat
  w : Nat
  h : Nat
  captionX : Nat
  captionY : Nat
  captionText : List Nat
deriving DecidableEq, Repr

/-- The record loop of `QRApp.export_pdf`: `i` is the enumeration index,
`page` the 0-indexed current page; a new page starts when
`i > 0 and i % 3 == 0`, and each record is drawn at
`y = 10 + (i % 3) * 90`. Rasters are assumed to render (the
`generate_qr_image` fallback `continue` is a defensive path of the
external encoder). -/
def export_loop (i page : Nat) : List StoreRec → Nat × List Placement
  | [] => (page, [])
  | r :: rs =>
    let page2 := if 0 < i ∧ i % 3 = 0 then page + 1 else page
    let rest := export_loop (i + 1) page2 rs
    (rest.1,
      { page := page2, y := 10 + (i % 3) * 90, w := 40, h := 40, captionX := 60,
        captionY := 10 + (i % 3) * 90, captionText := caption r } :: rest.2)

/-- Layout of `QRApp.export_pdf` over the fetched records: final
0-indexed page and the placement of every record, starting on page 0
(the initial `pdf.add_page()`). -/
def export_pdf_layout (records : List StoreRec) : Nat × List Placement :=
  export_loop 0 0 records

/-- Number of pages the export emits for a non-empty record set: the
initial `add_page` plus one per page break. -/
def export_pages (records : List StoreRec) : Nat :=
  (export_pdf_layout records).1 + 1

/-- Page the loop is on before processing index `i`. -/
def pageBefore (i : Nat) : Nat :=
  if i = 0 then 0 else (i - 1) / 3

theorem pageBefore_succ (i : Nat) : pageBefore (i + 1) = i / 3 := by
  simp [pageBefore]

theorem export_page_step (i : Nat) :
    (if 0 < i ∧ i % 3 = 0 then pageBefore i + 1 else pageBefore i) = i / 3 := by
  unfold pageBefore
  by_cases h : 0 < i ∧ i % 3 = 0
  · rw [if_pos h, if_neg (by omega)]
    omega
  · rw [if_neg h]
    by_cases h0 : i = 0
    · simp [h0]
    · rw [if_neg h0]
      omega

theorem export_loop_cons (i page : Nat) (r : StoreRec) (rs : List StoreRec) :
    export_loop i page (r :: rs) =
      ((export_loop (i + 1) (if 0 < i ∧ i % 3 = 0 then page + 1 else page) rs).1,
        { page := if 0 < i ∧ i % 3 = 0 then page + 1 else page, y := 10 + (i % 3) * 90,
          w := 40, h := 40, captionX := 60, captionY := 10 + (i % 3) * 90,
          captionText := caption r } ::
          (export_loop (i + 1) (if 0 < i ∧ i % 3 = 0 then page + 1 else page) rs).2) := rfl

theorem export_loop_spec (rs : List StoreRec) : ∀ i : Nat,
    (export_loop i (pageBefore i) rs).1 =
      (if rs.length = 0 then pageBefore i else (i + rs.length - 1) / 3) ∧
    (export_loop i (pageBefore i) rs).2.length = rs.length ∧
    ∀ j r, rs[j]? = some r →
      (export_loop i (pageBefore i) rs).2[j]? =
        some ({ page := (i + j) / 3, y := 10 + ((i + j) % 3) * 90, w := 40, h := 40,
                captionX := 60, captionY := 10 + ((i + j) % 3) * 90,
                captionText := caption r } : Placement) := by
  induction rs with
  | nil =>
    intro i
    refine ⟨by simp [export_loop], by simp [export_loop], ?_⟩
    intro j r hj
    simp at hj
  | cons r rs ih =>
    intro i
    have hpage : (if 0 < i ∧ i % 3 = 0 then pageBefore i + 1 else pageBefore i) =
        pageBefore (i + 1) := by
      rw [export_page_step, pageBefore_succ]
    rw [export_loop_cons, hpage]
    obtain ⟨ih1, ih2, ih3⟩ := ih (i + 1)
    refine ⟨?_, ?_, ?_⟩
    · rw [ih1]
      by_cases h0 : rs.length = 0
      · rw [if_pos h0, if_neg (by simp [List.length_cons])]
        rw [pageBefore_succ]
        simp [h0]
      · rw [if_neg h0, if_neg (by simp [List.length_cons])]
        simp only [List.length_cons]
        congr 1
        omega
    · simp [List.length_cons, ih2]
    · intro j r2 hj
      cases j with
      | zero =>
        simp only [List.getElem?_cons_zero, Option.some.injEq] at hj
        subst hj
        simp only [List.getElem?_cons_zero, Option.some.injEq]
        rw [pageBefore_succ]
        simp
      | succ k =>
        simp only [List.getElem?_cons_succ] at hj ⊢
        have hk := ih3 k r2 hj
        have e : i + 1 + k = i + (k + 1) := by omega
        rw [e] at hk
        exact hk

/-- C2: for every non-empty record set of size M the export lays the
records on exactly (M + 2) / 3 = ceil(M / 3) pages; record i (0-indexed,
store order) lands on page i / 3 (a new page starts exactly when i > 0
and i % 3 == 0) at vertical offset 10 + (i % 3) * 90 with width and
height 40, its caption block (description, creation timestamp,
personalization) placed beside it at x = 60. -/
theorem export_pdf_spec (records : List StoreRec) (h : records ≠ []) :
    export_pages records = (records.length + 2) / 3 ∧
    (export_pdf_layout records).2.length = records.length ∧
    ∀ i r, records[i]? = some r →
      (export_pdf_layout records).2[i]? =
        some ({ page := i / 3, y := 10 + (i % 3) * 90, w := 40, h := 40, captionX := 60,
                captionY := 10 + (i % 3) * 90, captionText := caption r } : Placement) := by
  obtain ⟨s1, s2, s3⟩ := export_loop_spec records 0
  refine ⟨?_, s2, ?_⟩
  · unfold export_pages export_pdf_layout
    show (export_loop 0 (pageBefore 0) records).1 + 1 = (records.length + 2) / 3
    rw [s1]
    have hlen : records.length ≠ 0 := by
      intro e
      exact h (List.length_eq_zero.mp e)
    rw [if_neg hlen]
    omega
  · intro i r hi
    have hp := s3 i r hi
    simpa using hp

/-- Four distinct records, to exercise the page break at index 3. -/
def sampleRecs : List StoreRec :=
  [sampleRec, { sampleRec with id := 2 }, { sampleRec with id := 3 }, { sampleRec with id := 4 }]

/-- Witness for C2 on four records: two pages, and record index 3 starts
the second page at vertical offset 10. -/
theorem export_pdf_spec_witness :
    export_pages sampleRecs = (sampleRecs.length + 2) / 3 ∧
    (export_pdf_layout sampleRecs).2.length = sampleRecs.length ∧
    (export_pdf_layout sampleRecs).2[3]? =
      some ({ page := 3 / 3, y := 10 + (3 % 3) * 90, w := 40, h := 40, captionX := 60,
              captionY := 10 + (3 % 3) * 90,
              captionText := caption { sampleRec with id := 4 } } : Placement) :=
  ⟨(export_pdf_spec sampleRecs (by decide)).1,
    (export_pdf_spec sampleRecs (by decide)).2.1,
    (export_pdf_spec sampleRecs (by decide)).2.2 3 { sampleRec with id := 4 } (by decide)⟩

/-- Outcome of one run of `QRApp.export_pdf` (the user picks a path). -/
inductive ExportOutcome where
  | emptyWarning
  | written (pages : Nat) (placements : List Placement)
  | failureDialog
deriving DecidableEq, Repr

/-- Model of `QRApp.export_pdf` from the fetch on: an empty fetch result
shows the no-data warning and writes nothing; otherwise the document is
laid out and written; an exception would end in the error dialog. -/
def export_pdf (fail : Bool) (db : DB) : ExportOutcome :=
  match get_all_qr_codes fail db with
  | Except.ok [] => ExportOutcome.emptyWarning
  | Except.ok qr_data => ExportOutcome.written (export_pages qr_data) (export_pdf_layout qr_data).2
  | Except.error _ => ExportOutcome.failureDialog

/-- C10: under a storage failure `get_all_qr_codes` returns the empty
list, indistinguishable from reading a genuinely empty store, and a PDF
export attempted under that failure takes the empty-set warning path (no
file written) instead of reporting a storage error. -/
theorem storage_failure_indistinguishable (db : DB) :
    get_all_qr_codes true db = Except.ok [] ∧
    get_all_qr_codes true db = get_all_qr_codes false initialDB ∧
    export_pdf true db = ExportOutcome.emptyWarning ∧
    export_pdf true db = export_pdf false initialDB :=
  ⟨rfl, rfl, rfl, rfl⟩
